import Mathlib

/-!
Shallow embedding of the UPI wallet simulator (`src/app.py`) and proofs of
the specification's claims about it.

Monetary values are modelled as exact rationals (`ℚ`): the source stores
balances and amounts in the database as Python floats, but every claim is
about the arithmetic relationships between them, which the source expresses
as exact `+`/`-` on the parsed amount.  Strings are modelled with Lean's
`String`; the Python methods `str.strip`, `str.lower` and `str.split`
are embedded below as `pyStrip`, `pyLower` and `localPart` (ASCII
semantics, which is what every identifier in this application uses).
-/

/-- Python whitespace, as used by `str.strip()` with no argument: every
character for which `str.isspace()` holds — the ASCII controls `\t \n \v
\f \r`, the separators `\x1c`-`\x1f`, space, `\x85`, `\xa0`, and the
Unicode space characters. -/
def isPySpace (c : Char) : Bool :=
  let n := c.toNat
  (9 ≤ n && n ≤ 13) || (28 ≤ n && n ≤ 31) || n == 32 || n == 133 ||
    n == 160 || n == 0x1680 || (0x2000 ≤ n && n ≤ 0x200a) || n == 0x2028 ||
    n == 0x2029 || n == 0x202f || n == 0x205f || n == 0x3000

/-- Model of Python `str.strip()`: drop leading and trailing whitespace. -/
def pyStrip (s : String) : String :=
  ⟨(((s.data.dropWhile isPySpace).reverse.dropWhile isPySpace).reverse)⟩

/-- Model of Python `str.lower()` on the ASCII range (all identifiers in
the application are ASCII): lower-case every character. -/
def pyLower (s : String) : String :=
  ⟨s.data.map Char.toLower⟩

/-- Model of Python `email.split('@')[0]`: the prefix of the string up to
(and not including) the first `'@'`, or the whole string if none. -/
def localPart (s : String) : String :=
  ⟨s.data.takeWhile (fun c => c ≠ '@')⟩

/-- The value of a Python float as the program observes it: a finite
value (kept as an exact rational — the rounding of finite values is
abstracted away, since every claim is about sign tests, comparisons and
the exact `+`/`-` relationships), `nan`, or an infinity.  `nan` matters:
`float('nan')` is accepted at `src/app.py` line 216 and compares `False`
against everything, so it slips past both the `amount <= 0` and the
`balance < amount` guards. -/
inductive PyFloat where
  | finite (q : ℚ)
  | nan
  | inf
  | negInf
deriving DecidableEq

/-- Python `<=` on floats: `nan` compares `False` with everything. -/
def PyFloat.le : PyFloat → PyFloat → Bool
  | .nan, _ => false
  | _, .nan => false
  | .negInf, _ => true
  | _, .inf => true
  | .inf, _ => false
  | .finite _, .negInf => false
  | .finite a, .finite b => decide (a ≤ b)

/-- Python `<` on floats: `nan` compares `False` with everything. -/
def PyFloat.lt : PyFloat → PyFloat → Bool
  | .nan, _ => false
  | _, .nan => false
  | .negInf, .negInf => false
  | .negInf, _ => true
  | _, .negInf => false
  | .inf, _ => false
  | .finite _, .inf => true
  | .finite a, .finite b => decide (a < b)

/-- Python float negation. -/
def PyFloat.neg : PyFloat → PyFloat
  | .nan => .nan
  | .inf => .negInf
  | .negInf => .inf
  | .finite a => .finite (-a)

/-- Python float addition (`nan` is absorbing; opposite infinities give
`nan`). -/
def PyFloat.add : PyFloat → PyFloat → PyFloat
  | .nan, _ => .nan
  | _, .nan => .nan
  | .inf, .negInf => .nan
  | .negInf, .inf => .nan
  | .inf, _ => .inf
  | _, .inf => .inf
  | .negInf, _ => .negInf
  | _, .negInf => .negInf
  | .finite a, .finite b => .finite (a + b)

/-- Python float subtraction. -/
def PyFloat.sub (a b : PyFloat) : PyFloat :=
  a.add b.neg

instance : LE PyFloat :=
  ⟨fun a b => PyFloat.le a b = true⟩

instance : LT PyFloat :=
  ⟨fun a b => PyFloat.lt a b = true⟩

instance (a b : PyFloat) : Decidable (a ≤ b) :=
  inferInstanceAs (Decidable (PyFloat.le a b = true))

instance (a b : PyFloat) : Decidable (a < b) :=
  inferInstanceAs (Decidable (PyFloat.lt a b = true))

instance : Add PyFloat :=
  ⟨PyFloat.add⟩

instance : Sub PyFloat :=
  ⟨PyFloat.sub⟩

instance : Neg PyFloat :=
  ⟨PyFloat.neg⟩

instance (n : Nat) : OfNat PyFloat n :=
  ⟨.finite (OfNat.ofNat n)⟩

/-- Rendering used when a float is interpolated into a flash string
(abbreviated: the exact `repr` of Python floats is irrelevant to the
claims). -/
instance : ToString PyFloat :=
  ⟨fun v =>
    match v with
    | .finite q => toString q
    | .nan => "nan"
    | .inf => "inf"
    | .negInf => "-inf"⟩

/-- `User` model (`src/app.py` lines 32-43). -/
structure User where
  id : Nat
  name : String
  email : String
  password : String
  upi_id : String
deriving DecidableEq

/-- `Wallet` model (`src/app.py` lines 46-52). -/
structure Wallet where
  user_id : Nat
  balance : PyFloat
deriving DecidableEq

/-- `Transaction` model (`src/app.py` lines 55-64).  The timestamp is an
abstract clock value (`datetime.utcnow` at insertion time). -/
structure Transaction where
  sender_upi : String
  receiver_upi : String
  amount : PyFloat
  description : String
  timestamp : Nat
deriving DecidableEq

/-- The persistent database state: the three tables, the autoincrement
counter for `User.id`, and the current clock used for new timestamps. -/
structure DB where
  users : List User
  wallets : List Wallet
  transactions : List Transaction
  nextId : Nat
  now : Nat
deriving DecidableEq

/-- Decimal digits to the natural number they denote (most significant
first). -/
def digitsToNat (ds : List Char) : Nat :=
  ds.foldl (fun n c => 10 * n + (c.toNat - 48)) 0

/-- How a call to Python `float(amount_str)` ends: a value, or a
`ValueError` (caught at `src/app.py` line 220).  String conversion never
raises `OverflowError`: out-of-range magnitudes quietly become `±inf`. -/
inductive ParseOutcome where
  | ok (v : PyFloat)
  | valueError
deriving DecidableEq

/-- Greedy scan of a digit group with Python's underscore rule: an
underscore must sit between two digits (`1_0` is fine, `1__0`, `1_`,
`_1` are not).  Returns the digits collected so far (underscores
removed) and the unconsumed rest. -/
def digitGroupGo (acc : List Char) : List Char → List Char × List Char
  | [] => (acc, [])
  | c :: rest =>
    if c.isDigit then digitGroupGo (acc ++ [c]) rest
    else if c = '_' then
      match rest with
      | [] => (acc, [c])
      | d :: rest2 =>
        if d.isDigit then digitGroupGo (acc ++ [d]) rest2
        else (acc, c :: rest)
    else (acc, c :: rest)

/-- A digit group must start with a digit; `none` when the input does
not start with one. -/
def digitGroup : List Char → Option (List Char × List Char)
  | c :: rest => if c.isDigit then some (digitGroupGo [c] rest) else none
  | [] => none

/-- Strip an optional leading sign; `true` means negative. -/
def splitSign (cs : List Char) : Bool × List Char :=
  match cs with
  | c :: rest =>
    if c = '-' then (true, rest)
    else if c = '+' then (false, rest)
    else (false, cs)
  | [] => (false, cs)

/-- The characters after a leading `'.'`, if any. -/
def dotSplit (cs : List Char) : Option (List Char) :=
  match cs with
  | c :: rest => if c = '.' then some rest else none
  | [] => none

/-- The characters after a leading `'e'`/`'E'`, if any. -/
def expSplit (cs : List Char) : Option (List Char) :=
  match cs with
  | c :: rest => if c = 'e' || c = 'E' then some rest else none
  | [] => none

/-- The exponent part after `e`/`E`: optional sign then a digit group. -/
def parseExp (cs : List Char) : Option (Int × List Char) :=
  let signed := splitSign cs
  match digitGroup signed.2 with
  | some (ds, rest) =>
    some (if signed.1 then -(digitsToNat ds : Int) else (digitsToNat ds : Int), rest)
  | none => none

/-- Model of Python `float(amount_str)` at `src/app.py` line 216 (the
input is already stripped).  Accepts everything `float()` accepts on an
ASCII string: optional sign; `inf`/`infinity`/`nan` case-insensitively;
or a decimal literal with optional fractional part, optional `e`/`E`
exponent, and underscores between digits.  Finite values are kept exact;
the two boundary behaviours that change the handler's control flow are
modelled exactly: magnitudes that round above the largest finite double
(at least `2^1024 - 2^970`) become `±inf`, and magnitudes at most
`2^-1075` underflow to `0.0`.  (Non-ASCII decimal digits, which Python
maps to ASCII before parsing, are not modelled; no claim involves
them.) -/
def parseAmount (s : String) : ParseOutcome :=
  let signed := splitSign s.data
  let negSign := signed.1
  let body := signed.2
  let lower := body.map Char.toLower
  if lower = "inf".data || lower = "infinity".data then
    .ok (if negSign then .negInf else .inf)
  else if lower = "nan".data then .ok .nan
  else
    let ip : List Char × List Char :=
      match digitGroup body with
      | some (ds, rest) => (ds, rest)
      | none => ([], body)
    let intPart := ip.1
    let fp : List Char × List Char :=
      match dotSplit ip.2 with
      | some rest2 =>
        match digitGroup rest2 with
        | some (ds, rest3) => (ds, rest3)
        | none => ([], rest2)
      | none => ([], ip.2)
    let fracPart := fp.1
    if intPart.isEmpty && fracPart.isEmpty then .valueError
    else
      let ex : Option (Int × List Char) :=
        match expSplit fp.2 with
        | some rest4 => parseExp rest4
        | none => some (0, fp.2)
      match ex with
      | none => .valueError
      | some (e, rest5) =>
        if rest5.isEmpty then
          let mag : ℚ := ((digitsToNat intPart : ℚ) +
            (digitsToNat fracPart : ℚ) / (10 : ℚ) ^ fracPart.length) *
            (10 : ℚ) ^ e
          let q : ℚ := if negSign then -mag else mag
          if q ≤ -((2 : ℚ) ^ 1024 - 2 ^ 970) ∨ (2 : ℚ) ^ 1024 - 2 ^ 970 ≤ q then
            .ok (if negSign then .negInf else .inf)
          else if -(1 / (2 : ℚ) ^ 1075) ≤ q ∧ q ≤ 1 / (2 : ℚ) ^ 1075 then
            .ok (.finite 0)
          else .ok (.finite q)
        else .valueError

/-- The spec's notion of a fixed-point number with at most two fractional
digits: one hundred times the value is an integer. -/
def atMostTwoFracDigits (q : ℚ) : Prop :=
  (q * 100).den = 1

instance : DecidablePred atMostTwoFracDigits := by
  unfold atMostTwoFracDigits
  infer_instance

/-- Replace the first element satisfying `p` by its image under `f`,
leaving everything else unchanged.  This is how a mutation of the single
ORM row returned by `filter_by(...).first()` acts on the table. -/
def updateFirst (p : α → Bool) (f : α → α) : List α → List α
  | [] => []
  | x :: xs => if p x then f x :: xs else x :: updateFirst p f xs

/-- Outcome of the `/transfer` route (`src/app.py` lines 196-262): each
constructor corresponds to one exit point of the handler. -/
inductive TransferResult where
  | notLoggedIn
  | serverError
  | missingFields
  | invalidAmount
  | nonPositiveAmount
  | selfTransfer
  | recipientNotFound (upi : String)
  | recipientWalletNotFound
  | insufficientBalance
  | commitError (detail : String)
  | success (amount : PyFloat) (receiver : String)
deriving DecidableEq

/-- The flash message each outcome shows the user, verbatim from the
source (the success amount is rendered from the exact rational rather
than through Python's `:.2f` float formatting). -/
def transferFlash : TransferResult → String
  | .notLoggedIn => "Please log in to make a transfer."
  | .serverError => "Internal Server Error"
  | .missingFields => "Recipient UPI ID and Amount are required."
  | .invalidAmount => "Invalid amount. Please enter a numerical value."
  | .nonPositiveAmount => "Amount must be positive."
  | .selfTransfer => "You cannot send money to yourself."
  | .recipientNotFound upi => "Recipient UPI ID \"" ++ upi ++ "\" not found."
  | .recipientWalletNotFound => "Recipient wallet not found. Please contact support."
  | .insufficientBalance => "Insufficient balance to complete the transaction."
  | .commitError e => "An error occurred during transfer: " ++ toString e
  | .success amt r => "Successfully sent ₹" ++ toString amt ++ " to " ++ r ++ "."

/-- The `/transfer` handler (`src/app.py` lines 196-262).

`sessionUserId` is `session['user_id']` (`none` when not logged in); the
three strings are the posted form fields; `commit` is the outcome of
`db.session.commit()` — `none` for success, `some e` for an exception
with detail `e`, in which case `db.session.rollback()` discards all three
pending writes.  A `None` dereference (missing sender row or missing
sender wallet at line 239) raises and aborts the request with nothing
persisted, modelled as `serverError`. -/
def transfer (db : DB) (sessionUserId : Option Nat)
    (recipientForm amountForm descriptionForm : String)
    (commit : Option String) : DB × TransferResult :=
  match sessionUserId with
  | none => (db, .notLoggedIn)
  | some uid =>
    match db.users.find? (fun u => u.id == uid) with
    | none => (db, .serverError)
    | some sender_user =>
      let sender_wallet := db.wallets.find? (fun w => w.user_id == sender_user.id)
      let receiver_upi := pyLower (pyStrip recipientForm)
      let amount_str := pyStrip amountForm
      let description := pyStrip descriptionForm
      if receiver_upi == "" || amount_str == "" then (db, .missingFields)
      else
        match parseAmount amount_str with
        | .valueError => (db, .invalidAmount)
        | .ok amount =>
          if amount ≤ 0 then (db, .nonPositiveAmount)
          else if receiver_upi == sender_user.upi_id then (db, .selfTransfer)
          else
            match db.users.find? (fun u => u.upi_id == receiver_upi) with
            | none => (db, .recipientNotFound receiver_upi)
            | some receiver_user =>
              match db.wallets.find? (fun w => w.user_id == receiver_user.id) with
              | none => (db, .recipientWalletNotFound)
              | some _receiver_wallet =>
                match sender_wallet with
                | none => (db, .serverError)
                | some sw =>
                  if sw.balance < amount then (db, .insufficientBalance)
                  else
                    match commit with
                    | some e => (db, .commitError e)
                    | none =>
                      let wallets1 := updateFirst
                        (fun w => w.user_id == sender_user.id)
                        (fun w => { w with balance := w.balance - amount })
                        db.wallets
                      let wallets2 := updateFirst
                        (fun w => w.user_id == receiver_user.id)
                        (fun w => { w with balance := w.balance + amount })
                        wallets1
                      let txn : Transaction :=
                        { sender_upi := sender_user.upi_id
                          receiver_upi := receiver_upi
                          amount := amount
                          description :=
                            if description == "" then "UPI Transfer" else description
                          timestamp := db.now }
                      ({ db with
                          wallets := wallets2
                          transactions := db.transactions ++ [txn] },
                       .success amount receiver_upi)

/-- Stand-in for `werkzeug.security.generate_password_hash` (external
library code; no claim depends on its value, only that a hash string is
stored rather than interpreted). -/
def hashPassword (p : String) : String :=
  "pbkdf2-sha256$" ++ p

/-- Outcome of the `/register` route (`src/app.py` lines 102-148). -/
inductive RegisterResult where
  | alreadyLoggedIn
  | fieldsRequired
  | emailTaken
  | serverError
  | success (upi : String)
deriving DecidableEq

/-- The collision loop of `src/app.py` lines 124-127: try
`base ++ repr counter ++ "@mockupi"` with `counter` increasing until the
candidate is not already taken.  The source loop is unbounded; `fuel`
bounds the search, and `none` means the loop has not yet found a free
identifier within `fuel` attempts (in which case the handler never
reaches its commits). -/
def genUpiLoop (usedUpis : List String) (base : String) :
    Nat → Nat → Option String
  | _counter, 0 => none
  | counter, fuel+1 =>
    let cand := base ++ Nat.repr counter ++ "@mockupi"
    if usedUpis.contains cand then genUpiLoop usedUpis base (counter+1) fuel
    else some cand

/-- The UPI-id derivation of `src/app.py` lines 121-127: first candidate
`base ++ "@mockupi"`, then the numeric-suffix collision loop. -/
def genUpi (usedUpis : List String) (base : String) (fuel : Nat) :
    Option String :=
  let first := base ++ "@mockupi"
  if usedUpis.contains first then genUpiLoop usedUpis base 1 fuel
  else some first

/-- The POST branch of the `/register` handler (`src/app.py` lines
102-148).  `commit1` and `commit2` are the outcomes of the two separate
`db.session.commit()` calls (lines 134 and 138): the user row is
committed first, the wallet row in a second commit.  A failed commit
raises out of the handler (nothing further persisted), modelled as
`serverError`. -/
def register (db : DB) (sessionUserId : Option Nat)
    (nameForm emailForm passwordForm : String)
    (fuel : Nat) (commit1 commit2 : Bool) : DB × RegisterResult :=
  match sessionUserId with
  | some _ => (db, .alreadyLoggedIn)
  | none =>
    let name := pyStrip nameForm
    let email := pyLower (pyStrip emailForm)
    if name == "" || email == "" || passwordForm == "" then
      (db, .fieldsRequired)
    else if (db.users.find? (fun u => u.email == email)).isSome then
      (db, .emailTaken)
    else
      match genUpi (db.users.map (fun u => u.upi_id)) (localPart email) fuel with
      | none => (db, .serverError)
      | some upi =>
        if commit1 then
          let user : User :=
            { id := db.nextId, name := name, email := email
              password := hashPassword passwordForm, upi_id := upi }
          let db1 := { db with users := db.users ++ [user], nextId := db.nextId + 1 }
          if commit2 then
            let wallet : Wallet := { user_id := user.id, balance := 1000 }
            ({ db1 with wallets := db1.wallets ++ [wallet] }, .success upi)
          else (db1, .serverError)
        else (db, .serverError)

/-- Insert a transaction into a newest-first list, keeping it sorted by
timestamp descending. -/
def insertTsDesc (t : Transaction) : List Transaction → List Transaction
  | [] => [t]
  | x :: xs =>
    if x.timestamp ≤ t.timestamp then t :: x :: xs else x :: insertTsDesc t xs

/-- Model of the SQL `ORDER BY timestamp DESC` of `src/app.py` line 282:
sort newest-first (insertion sort; ties resolve to some fixed order, as
in SQL, which guarantees no particular tie order). -/
def sortTsDesc (l : List Transaction) : List Transaction :=
  l.foldr insertTsDesc []

/-- The `/history` handler (`src/app.py` lines 265-284): `none` when not
logged in or when the session's user row is gone (both redirect to login);
otherwise the ledger rows in which the user's UPI id appears as sender or
receiver, newest first. -/
def history (db : DB) (sessionUserId : Option Nat) :
    Option (List Transaction) :=
  match sessionUserId with
  | none => none
  | some uid =>
    match db.users.find? (fun u => u.id == uid) with
    | none => none
    | some user =>
      some (sortTsDesc (db.transactions.filter
        (fun t => t.sender_upi == user.upi_id || t.receiver_upi == user.upi_id)))

/-- Observer: the balance of the (first) wallet row of a given user id,
as the dashboard and transfer path read it. -/
def getBalance (db : DB) (uid : Nat) : Option PyFloat :=
  (db.wallets.find? (fun w => w.user_id == uid)).map (fun w => w.balance)

/-- A concrete two-account database used to witness the theorems: Alice
(id 1) and Bob (id 2), each with the seeded balance of 1000. -/
def dbPair : DB :=
  { users := [
      { id := 1, name := "Alice", email := "alice@gmail.com",
        password := hashPassword "pw1", upi_id := "alice@mockupi" },
      { id := 2, name := "Bob", email := "bob@gmail.com",
        password := hashPassword "pw2", upi_id := "bob@mockupi" }]
    wallets := [{ user_id := 1, balance := 1000 }, { user_id := 2, balance := 1000 }]
    transactions := []
    nextId := 3
    now := 5 }

/-- The empty freshly created database. -/
def dbEmpty : DB :=
  { users := [], wallets := [], transactions := [], nextId := 1, now := 0 }

/-- `dbPair` with some ledger history for Alice and Bob and a third
parties' row that history for Alice must exclude. -/
def dbHist : DB :=
  { dbPair with
    users := dbPair.users ++
      [{ id := 3, name := "Carol", email := "carol@gmail.com",
         password := hashPassword "pw3", upi_id := "carol@mockupi" }],
    wallets := dbPair.wallets ++ [{ user_id := 3, balance := 1000 }],
    transactions := [
      { sender_upi := "alice@mockupi", receiver_upi := "bob@mockupi",
        amount := 10, description := "UPI Transfer", timestamp := 1 },
      { sender_upi := "bob@mockupi", receiver_upi := "carol@mockupi",
        amount := 20, description := "UPI Transfer", timestamp := 2 },
      { sender_upi := "carol@mockupi", receiver_upi := "alice@mockupi",
        amount := 30, description := "UPI Transfer", timestamp := 3 }],
    nextId := 4 }

/-- `dbPair` but with Bob's wallet row missing, exercising the
recipient-wallet check of `src/app.py` lines 234-237. -/
def dbNoWallet : DB :=
  { dbPair with wallets := [{ user_id := 1, balance := 1000 }] }

/-- Alice's account row in `dbPair`, `dbHist` and `dbNoWallet`. -/
def userAlice : User :=
  { id := 1, name := "Alice", email := "alice@gmail.com",
    password := hashPassword "pw1", upi_id := "alice@mockupi" }

/-- The two ledger rows of `dbHist` that mention Alice, newest first. -/
def aliceRows : List Transaction :=
  [{ sender_upi := "carol@mockupi", receiver_upi := "alice@mockupi",
     amount := 30, description := "UPI Transfer", timestamp := 3 },
   { sender_upi := "alice@mockupi", receiver_upi := "bob@mockupi",
     amount := 10, description := "UPI Transfer", timestamp := 1 }]

/-! ### Helper lemmas -/

/-- Inversion for a committed transfer: every fact the handler checked on
the way to `success`, and the exact shape of the committed state. -/
theorem transfer_success_inv
    {db : DB} {sid : Option Nat} {r a d : String} {c : Option String}
    {db' : DB} {amt : PyFloat} {rupi : String}
    (h : transfer db sid r a d c = (db', .success amt rupi)) :
    ∃ uid sender receiver sw,
      sid = some uid ∧
      db.users.find? (fun u => u.id == uid) = some sender ∧
      rupi = pyLower (pyStrip r) ∧
      parseAmount (pyStrip a) = .ok amt ∧
      ¬ amt ≤ 0 ∧
      rupi ≠ sender.upi_id ∧
      db.users.find? (fun u => u.upi_id == rupi) = some receiver ∧
      (db.wallets.find? (fun w => w.user_id == receiver.id)).isSome ∧
      db.wallets.find? (fun w => w.user_id == sender.id) = some sw ∧
      ¬ sw.balance < amt ∧
      c = none ∧
      db' = { db with
        wallets := updateFirst (fun w => w.user_id == receiver.id)
          (fun w => { w with balance := w.balance + amt })
          (updateFirst (fun w => w.user_id == sender.id)
            (fun w => { w with balance := w.balance - amt }) db.wallets),
        transactions := db.transactions ++
          [{ sender_upi := sender.upi_id, receiver_upi := rupi, amount := amt,
             description := if pyStrip d == "" then "UPI Transfer" else pyStrip d,
             timestamp := db.now }] } := by
  unfold transfer at h
  split at h
  · simp at h
  rename_i uid
  split at h
  · simp at h
  rename_i sender hsender
  simp only at h
  split at h
  · simp at h
  rename_i hne
  split at h
  · simp at h
  rename_i amt0 hparse
  split at h
  · simp at h
  rename_i hpos
  split at h
  · simp at h
  rename_i hself
  split at h
  · simp at h
  rename_i receiver hreceiver
  split at h
  · simp at h
  rename_i rw0 hrw
  split at h
  · simp at h
  rename_i sw hsw
  split at h
  · simp at h
  rename_i hbal
  split at h
  · simp at h
  rw [Prod.mk.injEq] at h
  obtain ⟨hdb, hres⟩ := h
  injection hres with ham hru
  subst ham
  subst hru
  refine ⟨uid, sender, receiver, sw, rfl, hsender, rfl, hparse, hpos, ?_,
    hreceiver, ?_, hsw, hbal, rfl, hdb.symm⟩
  · intro hcon
    exact hself (by simp [hcon])
  · simp [hrw]

/-- A transfer either leaves the database untouched or reports success:
every rejection and every rolled-back commit is free of state change. -/
theorem transfer_unchanged_or_success (db : DB) (sid : Option Nat)
    (r a d : String) (c : Option String) :
    (transfer db sid r a d c).1 = db ∨
      ∃ amt rupi, (transfer db sid r a d c).2 = .success amt rupi := by
  unfold transfer
  split
  · exact Or.inl rfl
  split
  · exact Or.inl rfl
  simp only
  repeat' split
  all_goals simp

theorem pyFloat_zero_eq : (0 : PyFloat) = .finite 0 :=
  rfl

theorem pyFloat_ofNat (n : ℕ) :
    (no_index (OfNat.ofNat n) : PyFloat) = .finite (OfNat.ofNat n) :=
  rfl

theorem pyFloat_le_finite {a b : ℚ} :
    ((.finite a : PyFloat) ≤ .finite b) ↔ a ≤ b := by
  show PyFloat.le _ _ = true ↔ _
  simp [PyFloat.le]

theorem pyFloat_lt_finite {a b : ℚ} :
    ((.finite a : PyFloat) < .finite b) ↔ a < b := by
  show PyFloat.lt _ _ = true ↔ _
  simp [PyFloat.lt]

theorem pyFloat_finite_lt_inf (a : ℚ) : ((.finite a : PyFloat) < .inf) := by
  show PyFloat.lt _ _ = true
  rfl

theorem pyFloat_negInf_le_finite (b : ℚ) : ((.negInf : PyFloat) ≤ .finite b) := by
  show PyFloat.le _ _ = true
  rfl

theorem pyFloat_sub_finite (a b : ℚ) :
    (.finite a : PyFloat) - .finite b = .finite (a - b) := by
  show PyFloat.sub _ _ = _
  simp [PyFloat.sub, PyFloat.neg, PyFloat.add, sub_eq_add_neg]

theorem pyFloat_nan_not_le (b : PyFloat) : ¬ (.nan : PyFloat) ≤ b := by
  show ¬ PyFloat.le _ _ = true
  simp [PyFloat.le]

theorem pyFloat_not_lt_nan (a : PyFloat) : ¬ a < .nan := by
  show ¬ PyFloat.lt _ _ = true
  cases a <;> simp [PyFloat.lt]

theorem pyFloat_sub_nan (a : PyFloat) : a - .nan = .nan := by
  show PyFloat.sub _ _ = _
  cases a <;> rfl

theorem pyFloat_add_nan (a : PyFloat) : a + .nan = .nan := by
  show PyFloat.add _ _ = _
  cases a <;> rfl

theorem pyFloat_add_finite (a b : ℚ) :
    (.finite a : PyFloat) + .finite b = .finite (a + b) :=
  rfl

theorem mem_updateFirst {α : Type} {p : α → Bool} {f : α → α} {l : List α}
    {a : α} (h : a ∈ updateFirst p f l) :
    a ∈ l ∨ ∃ x, l.find? p = some x ∧ a = f x := by
  induction l with
  | nil => simp [updateFirst] at h
  | cons y ys ih =>
    simp only [updateFirst] at h
    by_cases hy : p y
    · rw [if_pos hy] at h
      rcases List.mem_cons.mp h with h1 | h1
      · exact Or.inr ⟨y, List.find?_cons_of_pos _ hy, h1⟩
      · exact Or.inl (List.mem_cons_of_mem _ h1)
    · rw [if_neg hy] at h
      rcases List.mem_cons.mp h with h1 | h1
      · exact Or.inl (by simp [h1])
      · rcases ih h1 with h2 | ⟨x, hx, hax⟩
        · exact Or.inl (List.mem_cons_of_mem _ h2)
        · refine Or.inr ⟨x, ?_, hax⟩
          rw [List.find?_cons_of_neg _ (by simpa using hy)]
          exact hx

theorem find?_updateFirst_self {α : Type} (p : α → Bool) (f : α → α)
    (hf : ∀ x, p (f x) = p x) (l : List α) :
    (updateFirst p f l).find? p = (l.find? p).map f := by
  induction l with
  | nil => simp [updateFirst]
  | cons y ys ih =>
    by_cases hy : p y
    · simp only [updateFirst, if_pos hy]
      rw [List.find?_cons_of_pos _ (by rw [hf]; exact hy),
        List.find?_cons_of_pos _ hy]
      rfl
    · simp only [updateFirst, if_neg hy]
      rw [List.find?_cons_of_neg _ (by simpa using hy),
        List.find?_cons_of_neg _ (by simpa using hy)]
      exact ih

theorem find?_updateFirst_disjoint {α : Type} (p q : α → Bool) (f : α → α)
    (hq : ∀ x, p x = true → (q x = false ∧ q (f x) = false)) (l : List α) :
    (updateFirst p f l).find? q = l.find? q := by
  induction l with
  | nil => rfl
  | cons y ys ih =>
    by_cases hy : p y
    · obtain ⟨h1, h2⟩ := hq y hy
      simp only [updateFirst, if_pos hy]
      rw [List.find?_cons_of_neg _ (by simp [h2]),
        List.find?_cons_of_neg _ (by simp [h1])]
    · simp only [updateFirst, if_neg hy]
      by_cases hqy : q y
      · rw [List.find?_cons_of_pos _ hqy, List.find?_cons_of_pos _ hqy]
      · rw [List.find?_cons_of_neg _ (by simpa using hqy),
          List.find?_cons_of_neg _ (by simpa using hqy)]
        exact ih

theorem insertTsDesc_perm (t : Transaction) (l : List Transaction) :
    (insertTsDesc t l).Perm (t :: l) := by
  induction l with
  | nil => exact List.Perm.refl _
  | cons x xs ih =>
    simp only [insertTsDesc]
    split
    · exact List.Perm.refl _
    · exact (ih.cons x).trans (List.Perm.swap t x xs)

theorem sortTsDesc_perm (l : List Transaction) : (sortTsDesc l).Perm l := by
  induction l with
  | nil => exact List.Perm.refl _
  | cons x xs ih =>
    simp only [sortTsDesc, List.foldr_cons]
    exact (insertTsDesc_perm x _).trans (ih.cons x)

theorem sorted_insertTsDesc {t : Transaction} {l : List Transaction}
    (h : List.Sorted (fun x y => y.timestamp ≤ x.timestamp) l) :
    List.Sorted (fun x y => y.timestamp ≤ x.timestamp) (insertTsDesc t l) := by
  induction l with
  | nil => simp [insertTsDesc]
  | cons x xs ih =>
    rw [List.sorted_cons] at h
    obtain ⟨hx, hxs⟩ := h
    simp only [insertTsDesc]
    split
    · rename_i hle
      rw [List.sorted_cons]
      refine ⟨?_, by rw [List.sorted_cons]; exact ⟨hx, hxs⟩⟩
      intro b hb
      rcases List.mem_cons.mp hb with rfl | hb
      · exact hle
      · exact le_trans (hx b hb) hle
    · rename_i hgt
      rw [List.sorted_cons]
      refine ⟨?_, ih hxs⟩
      intro b hb
      rcases List.mem_cons.mp ((insertTsDesc_perm t xs).mem_iff.mp hb) with rfl | hb2
      · omega
      · exact hx b hb2

theorem sorted_sortTsDesc (l : List Transaction) :
    List.Sorted (fun x y => y.timestamp ≤ x.timestamp) (sortTsDesc l) := by
  induction l with
  | nil => simp [sortTsDesc]
  | cons x xs ih =>
    simp only [sortTsDesc, List.foldr_cons]
    exact sorted_insertTsDesc ih

theorem genUpiLoop_not_mem {used : List String} {base : String} :
    ∀ {counter fuel : Nat} {u : String},
      genUpiLoop used base counter fuel = some u → ¬ u ∈ used := by
  intro counter fuel
  induction fuel generalizing counter with
  | zero => intro u h; simp [genUpiLoop] at h
  | succ fuel ih =>
    intro u h
    simp only [genUpiLoop] at h
    split at h
    · exact ih h
    · rename_i hni
      cases h
      simpa using hni

theorem genUpi_not_mem {used : List String} {base : String} {fuel : Nat}
    {u : String} (h : genUpi used base fuel = some u) : ¬ u ∈ used := by
  simp only [genUpi] at h
  split at h
  · exact genUpiLoop_not_mem h
  · rename_i hni
    cases h
    simpa using hni

theorem genUpiLoop_shape {used : List String} {base : String} :
    ∀ {counter fuel : Nat} {u : String},
      genUpiLoop used base counter fuel = some u →
      ∃ k, u = base ++ Nat.repr k ++ "@mockupi" := by
  intro counter fuel
  induction fuel generalizing counter with
  | zero => intro u h; simp [genUpiLoop] at h
  | succ fuel ih =>
    intro u h
    simp only [genUpiLoop] at h
    split at h
    · exact ih h
    · cases h
      exact ⟨counter, rfl⟩

theorem genUpi_shape {used : List String} {base : String} {fuel : Nat}
    {u : String} (h : genUpi used base fuel = some u) :
    u = base ++ "@mockupi" ∨ ∃ k, u = base ++ Nat.repr k ++ "@mockupi" := by
  simp only [genUpi] at h
  split at h
  · exact Or.inr (genUpiLoop_shape h)
  · cases h
    exact Or.inl rfl

/-- Inversion for a fully committed registration: both commits succeeded
and the database gained exactly one user row and one wallet row. -/
theorem register_success_inv
    {db : DB} {n e p : String} {fuel : Nat} {c1 c2 : Bool}
    {db' : DB} {upi : String}
    (h : register db none n e p fuel c1 c2 = (db', .success upi)) :
    genUpi (db.users.map (fun u => u.upi_id)) (localPart (pyLower (pyStrip e)))
        fuel = some upi ∧
    c1 = true ∧ c2 = true ∧
    db' = { db with
      users := db.users ++
        [{ id := db.nextId, name := pyStrip n,
           email := pyLower (pyStrip e), password := hashPassword p,
           upi_id := upi }],
      wallets := db.wallets ++ [{ user_id := db.nextId, balance := 1000 }],
      nextId := db.nextId + 1 } := by
  unfold register at h
  simp only at h
  split at h
  · simp at h
  split at h
  · simp at h
  split at h
  · simp at h
  rename_i upi0 hupi
  split at h
  · rename_i hc1
    split at h
    · rename_i hc2
      rw [Prod.mk.injEq] at h
      obtain ⟨hdb, hres⟩ := h
      injection hres with hu
      subst hu
      exact ⟨hupi, hc1, hc2, hdb.symm⟩
    · simp at h
  · simp at h

theorem toNat_ofNat_valid (n : Nat) (h : n.isValidChar) :
    (Char.ofNat n).toNat = n := by
  unfold Char.ofNat
  rw [dif_pos h]
  rfl

theorem char_toLower_idem (c : Char) : c.toLower.toLower = c.toLower := by
  unfold Char.toLower
  by_cases h : c.toNat ≥ 65 ∧ c.toNat ≤ 90
  · rw [if_pos h]
    have hv : (c.toNat + 32).isValidChar := Or.inl (by omega)
    rw [toNat_ofNat_valid _ hv]
    rw [if_neg (by omega)]
  · rw [if_neg h, if_neg h]

theorem map_toLower_eq_self {l : List Char} (h : ∀ c ∈ l, c.toLower = c) :
    l.map Char.toLower = l := by
  induction l with
  | nil => rfl
  | cons x xs ih =>
    simp only [List.map_cons]
    rw [h x (by simp), ih (fun c hc => h c (by simp [hc]))]

theorem pyLower_data (s : String) : (pyLower s).data = s.data.map Char.toLower :=
  rfl

theorem pyLower_append (a b : String) :
    pyLower (a ++ b) = pyLower a ++ pyLower b := by
  apply String.ext
  rw [pyLower_data, String.data_append, String.data_append,
    pyLower_data, pyLower_data, List.map_append]

theorem pyLower_fixed_of_forall {s : String} (h : ∀ c ∈ s.data, c.toLower = c) :
    pyLower s = s := by
  apply String.ext
  rw [pyLower_data, map_toLower_eq_self h]

theorem mem_pyLower_lower {s : String} {c : Char} (h : c ∈ (pyLower s).data) :
    c.toLower = c := by
  rw [pyLower_data] at h
  obtain ⟨x, _, rfl⟩ := List.mem_map.mp h
  exact char_toLower_idem x

theorem digitChar_lower {m : Nat} (h : m < 10) :
    (Nat.digitChar m).toLower = Nat.digitChar m := by
  have hall : ∀ m, m < 10 → (Nat.digitChar m).toLower = Nat.digitChar m := by
    decide
  exact hall m h

theorem toDigitsCore_lower (fuel : Nat) :
    ∀ (n : Nat) (ds : List Char), (∀ c ∈ ds, c.toLower = c) →
      ∀ c ∈ Nat.toDigitsCore 10 fuel n ds, c.toLower = c := by
  induction fuel with
  | zero =>
    intro n ds hds
    simpa [Nat.toDigitsCore] using hds
  | succ fuel ih =>
    intro n ds hds c hc
    rw [Nat.toDigitsCore] at hc
    have hd : ((n % 10).digitChar).toLower = (n % 10).digitChar :=
      digitChar_lower (Nat.mod_lt _ (by norm_num))
    split at hc
    · rcases List.mem_cons.mp hc with rfl | hmem
      · exact hd
      · exact hds c hmem
    · refine ih (n / 10) _ ?_ c hc
      intro x hx
      rcases List.mem_cons.mp hx with rfl | hmem
      · exact hd
      · exact hds x hmem

theorem repr_lower (k : Nat) : ∀ c ∈ (Nat.repr k).data, c.toLower = c := by
  intro c hc
  have hdata : (Nat.repr k).data = Nat.toDigitsCore 10 (k+1) k [] := rfl
  rw [hdata] at hc
  exact toDigitsCore_lower (k+1) k [] (by simp) c hc

/-- Every UPI id assigned at registration is already lower-case: the base
comes from the lower-cased email, the suffix is decimal digits, and the
domain suffix is the literal `"@mockupi"`. -/
theorem register_upi_lowerFixed
    {db : DB} {n e p : String} {fuel : Nat} {c1 c2 : Bool}
    {db' : DB} {upi : String}
    (h : register db none n e p fuel c1 c2 = (db', .success upi)) :
    pyLower upi = upi := by
  obtain ⟨hupi, -, -, -⟩ := register_success_inv h
  have hbase : ∀ c ∈ (localPart (pyLower (pyStrip e))).data, c.toLower = c := by
    intro c hc
    have hsub : c ∈ (pyLower (pyStrip e)).data :=
      (List.takeWhile_sublist _).subset hc
    exact mem_pyLower_lower hsub
  have hdom : ∀ c ∈ ("@mockupi" : String).data, c.toLower = c := by decide
  rcases genUpi_shape hupi with hsh | ⟨k, hsh⟩ <;> subst hsh
  · apply pyLower_fixed_of_forall
    intro c hc
    rw [String.data_append] at hc
    rcases List.mem_append.mp hc with hc | hc
    · exact hbase c hc
    · exact hdom c hc
  · apply pyLower_fixed_of_forall
    intro c hc
    rw [String.data_append, String.data_append] at hc
    rcases List.mem_append.mp hc with hc | hc
    · rcases List.mem_append.mp hc with hc | hc
      · exact hbase c hc
      · exact repr_lower k c hc
    · exact hdom c hc

/-! ### Claims -/

/-- C1: for every transfer that commits successfully, the sender's wallet
balance afterwards equals its balance before minus the amount, the
receiver's wallet balance afterwards equals its balance before plus the
amount, and exactly one new ledger entry is appended recording that
sender identifier, receiver identifier and amount. -/
theorem claim_C1_commit_balances_and_ledger
    (db : DB) (sid : Option Nat) (r a d : String) (c : Option String)
    (db' : DB) (amt : PyFloat) (rupi : String)
    (hids : (db.users.map (fun u => u.id)).Nodup)
    (h : transfer db sid r a d c = (db', .success amt rupi)) :
    ∃ uid sender receiver,
      sid = some uid ∧
      db.users.find? (fun u => u.id == uid) = some sender ∧
      db.users.find? (fun u => u.upi_id == rupi) = some receiver ∧
      receiver.upi_id = rupi ∧
      (∃ bs, getBalance db sender.id = some bs ∧
             getBalance db' sender.id = some (bs - amt)) ∧
      (∃ br, getBalance db receiver.id = some br ∧
             getBalance db' receiver.id = some (br + amt)) ∧
      (∃ desc, db'.transactions = db.transactions ++
        [{ sender_upi := sender.upi_id, receiver_upi := rupi, amount := amt,
           description := desc, timestamp := db.now }]) := by
  obtain ⟨uid, sender, receiver, sw, hsid, hsender, hrupi, hparse, hpos, hnself,
    hreceiver, hrw, hsw, hbal, hc, hdb⟩ := transfer_success_inv h
  have hrupieq : receiver.upi_id = rupi := by
    have := List.find?_some hreceiver
    simpa using this
  have hner : sender ≠ receiver := by
    intro hcon
    exact hnself (by rw [hcon, hrupieq])
  have hnid : sender.id ≠ receiver.id := by
    intro hcon
    exact hner (List.inj_on_of_nodup_map hids
      (List.mem_of_find?_eq_some hsender) (List.mem_of_find?_eq_some hreceiver) hcon)
  obtain ⟨rw0, hrw0⟩ := Option.isSome_iff_exists.mp hrw
  have hsendbal : getBalance db' sender.id = some (sw.balance - amt) := by
    unfold getBalance
    rw [hdb]
    simp only
    rw [find?_updateFirst_disjoint (fun w : Wallet => w.user_id == receiver.id)
      (fun w : Wallet => w.user_id == sender.id)
      (fun w : Wallet => { w with balance := w.balance + amt })
      (by intro x hx; constructor <;> simp_all [Ne.symm hnid])]
    rw [find?_updateFirst_self (fun w : Wallet => w.user_id == sender.id)
      (fun w : Wallet => { w with balance := w.balance - amt })
      (fun x => rfl)]
    rw [hsw]
    rfl
  have hrecvbal : getBalance db' receiver.id = some (rw0.balance + amt) := by
    unfold getBalance
    rw [hdb]
    simp only
    rw [find?_updateFirst_self (fun w : Wallet => w.user_id == receiver.id)
      (fun w : Wallet => { w with balance := w.balance + amt })
      (fun x => rfl)]
    rw [find?_updateFirst_disjoint (fun w : Wallet => w.user_id == sender.id)
      (fun w : Wallet => w.user_id == receiver.id)
      (fun w : Wallet => { w with balance := w.balance - amt })
      (by intro x hx; constructor <;> simp_all [hnid])]
    rw [hrw0]
    rfl
  refine ⟨uid, sender, receiver, hsid, hsender, hreceiver, hrupieq,
    ⟨sw.balance, ?_, hsendbal⟩, ⟨rw0.balance, ?_, hrecvbal⟩,
    ⟨if pyStrip d == "" then "UPI Transfer" else pyStrip d, ?_⟩⟩
  · unfold getBalance; rw [hsw]; rfl
  · unfold getBalance; rw [hrw0]; rfl
  · rw [hdb]

/-- C2 counterexample: the amount string `"nan"` is accepted by
`float()` (`src/app.py` line 216); NaN compares `False` both against `0`
(line 217) and against the sender balance (line 239), so the transfer
commits with the sender balance NOT at least the amount, and the debited
balance becomes NaN, which is not `>= 0` — refuting the claim as stated. -/
theorem claim_C2_counterexample :
    parseAmount "nan" = .ok .nan ∧
    (transfer dbPair (some 1) "bob@mockupi" "nan" "" none).2 =
      TransferResult.success .nan "bob@mockupi" ∧
    getBalance (transfer dbPair (some 1) "bob@mockupi" "nan" "" none).1 1 =
      some .nan ∧
    PyFloat.le (.finite 0) .nan = false ∧
    PyFloat.le .nan (.finite 1000) = false := by
  refine ⟨by decide, ?_, ?_, by decide, by decide⟩
  · simp [transfer, dbPair, parseAmount, splitSign, dotSplit, expSplit, digitGroup, digitGroupGo, parseExp,
      digitsToNat, pyLower, pyStrip, isPySpace, updateFirst, PyFloat.le,
      PyFloat.lt, PyFloat.sub, PyFloat.add, PyFloat.neg, getBalance,
      pyFloat_nan_not_le, pyFloat_not_lt_nan, pyFloat_sub_nan, pyFloat_add_nan]
  · simp [transfer, dbPair, parseAmount, splitSign, dotSplit, expSplit, digitGroup, digitGroupGo, parseExp,
      digitsToNat, pyLower, pyStrip, isPySpace, updateFirst, PyFloat.le,
      PyFloat.lt, PyFloat.sub, PyFloat.add, PyFloat.neg, getBalance,
      pyFloat_nan_not_le, pyFloat_not_lt_nan, pyFloat_sub_nan, pyFloat_add_nan]

/-- C2 (amended): as long as the parsed amount is not NaN, starting from
wallets whose balances are finite and non-negative, no transfer —
committed or rejected — leaves any wallet balance negative or non-finite;
and every committed transfer had a positive amount and sender balance at
least the amount beforehand.  (The amount string `"nan"` evades both
guards and commits a NaN balance — see the counterexample.) -/
theorem claim_C2_amended_nonneg_unless_nan
    (db : DB) (sid : Option Nat) (r a d : String) (c : Option String)
    (h0 : ∀ w ∈ db.wallets, ∃ q : ℚ, w.balance = .finite q ∧ 0 ≤ q)
    (hnn : parseAmount (pyStrip a) ≠ .ok .nan) :
    (∀ w ∈ (transfer db sid r a d c).1.wallets,
      ∃ q : ℚ, w.balance = .finite q ∧ 0 ≤ q) ∧
    (∀ db' amt rupi, transfer db sid r a d c = (db', .success amt rupi) →
      ¬ amt ≤ 0 ∧ ∃ uid sender sw, sid = some uid ∧
        db.users.find? (fun u => u.id == uid) = some sender ∧
        db.wallets.find? (fun w => w.user_id == sender.id) = some sw ∧
        amt ≤ sw.balance) := by
  have key : ∀ db' amt rupi,
      transfer db sid r a d c = (db', .success amt rupi) →
      ∃ qa : ℚ, amt = .finite qa ∧ 0 < qa := by
    intro db' amt rupi h'
    obtain ⟨uid, sender, receiver, sw, hsid, hsender, hrupi, hparse, hpos,
      hnself, hreceiver, hrw, hsw, hbal, hc, hdb⟩ := transfer_success_inv h'
    obtain ⟨qs, hqs, hqs0⟩ := h0 sw (List.mem_of_find?_eq_some hsw)
    cases amt with
    | finite qa =>
      refine ⟨qa, rfl, ?_⟩
      by_contra hle
      push_neg at hle
      exact hpos (by rw [pyFloat_zero_eq]; exact pyFloat_le_finite.mpr hle)
    | nan => exact absurd hparse hnn
    | inf =>
      refine absurd ?_ hbal
      rw [hqs]
      exact pyFloat_finite_lt_inf qs
    | negInf =>
      refine absurd ?_ hpos
      rw [pyFloat_zero_eq]
      exact pyFloat_negInf_le_finite 0
  constructor
  · rcases transfer_unchanged_or_success db sid r a d c with hun | ⟨amt, rupi, hs⟩
    · rw [hun]; exact h0
    · have hfull : transfer db sid r a d c =
          ((transfer db sid r a d c).1, (transfer db sid r a d c).2) := rfl
      rw [hs] at hfull
      obtain ⟨qa, hqa, hqa0⟩ := key _ amt rupi hfull
      obtain ⟨uid, sender, receiver, sw, hsid, hsender, hrupi, hparse, hpos,
        hnself, hreceiver, hrw, hsw, hbal, hc, hdb⟩ := transfer_success_inv hfull
      obtain ⟨qs, hqs, hqs0⟩ := h0 sw (List.mem_of_find?_eq_some hsw)
      subst hqa
      have hqle : qa ≤ qs := by
        by_contra hgt
        push_neg at hgt
        exact hbal (by rw [hqs]; exact pyFloat_lt_finite.mpr hgt)
      intro w hw
      rw [hdb] at hw
      simp only at hw
      have hsub : ∀ x ∈ updateFirst (fun w => w.user_id == sender.id)
          (fun w => { w with balance := w.balance - .finite qa }) db.wallets,
          ∃ q : ℚ, x.balance = .finite q ∧ 0 ≤ q := by
        intro x hx
        rcases mem_updateFirst hx with hx1 | ⟨y, hy, rfl⟩
        · exact h0 x hx1
        · rw [hy] at hsw
          cases Option.some.inj hsw
          refine ⟨qs - qa, ?_, sub_nonneg.mpr hqle⟩
          simp only [hqs, pyFloat_sub_finite]
      rcases mem_updateFirst hw with hw1 | ⟨y, hy, rfl⟩
      · exact hsub _ hw1
      · have hy' := List.mem_of_find?_eq_some hy
        obtain ⟨qy, hqy, hqy0⟩ := hsub y hy'
        refine ⟨qy + qa, ?_, add_nonneg hqy0 (le_of_lt hqa0)⟩
        simp only [hqy, pyFloat_add_finite]
  · intro db' amt rupi h'
    obtain ⟨qa, hqa, hqa0⟩ := key db' amt rupi h'
    obtain ⟨uid, sender, receiver, sw, hsid, hsender, hrupi, hparse, hpos,
      hnself, hreceiver, hrw, hsw, hbal, hc, hdb⟩ := transfer_success_inv h'
    obtain ⟨qs, hqs, hqs0⟩ := h0 sw (List.mem_of_find?_eq_some hsw)
    refine ⟨hpos, uid, sender, sw, hsid, hsender, hsw, ?_⟩
    subst hqa
    rw [hqs]
    refine pyFloat_le_finite.mpr ?_
    by_contra hgt
    push_neg at hgt
    exact hbal (by rw [hqs]; exact pyFloat_lt_finite.mpr hgt)

/-- C3 counterexample: the handler parses amounts with `float()` and never
checks the number of fractional digits, so the amount `"0.001"` — three
fractional digits — is accepted and committed, contradicting the claim
that the amount must be a fixed-point number with at most two fractional
digits. -/
theorem claim_C3_counterexample :
    parseAmount "0.001" = .ok (.finite (1 / 1000)) ∧
    ¬ atMostTwoFracDigits (1 / 1000) ∧
    (transfer dbPair (some 1) "bob@mockupi" "0.001" "" none).2 =
      TransferResult.success (.finite (1 / 1000)) "bob@mockupi" ∧
    (transfer dbPair (some 1) "bob@mockupi" "0.001" "" none).1.transactions =
      [{ sender_upi := "alice@mockupi", receiver_upi := "bob@mockupi",
         amount := .finite (1 / 1000), description := "UPI Transfer",
         timestamp := 5 }] := by
  have hp : parseAmount "0.001" = .ok (.finite (1 / 1000)) := by
    simp [parseAmount, splitSign, dotSplit, expSplit, digitGroup, digitGroupGo,
      parseExp, digitsToNat]
    try norm_num
  have hrun : transfer dbPair (some 1) "bob@mockupi" "0.001" "" none =
      ({ dbPair with
          wallets := [{ user_id := 1, balance := .finite (1000 - 1 / 1000) },
                      { user_id := 2, balance := .finite (1000 + 1 / 1000) }],
          transactions :=
            [{ sender_upi := "alice@mockupi", receiver_upi := "bob@mockupi",
               amount := .finite (1 / 1000), description := "UPI Transfer",
               timestamp := 5 }] },
       TransferResult.success (.finite (1 / 1000)) "bob@mockupi") := by
    simp [transfer, dbPair, hp, pyLower, pyStrip, isPySpace, updateFirst,
      pyFloat_ofNat, pyFloat_lt_finite, pyFloat_le_finite, pyFloat_zero_eq,
      pyFloat_sub_finite, pyFloat_add_finite]
    norm_num
  refine ⟨hp, by norm_num [atMostTwoFracDigits], ?_, ?_⟩
  · rw [hrun]
  · rw [hrun]

/-- C3 (amended): the amount must parse as a positive number under
`float()`; any request whose amount is non-numeric, zero, or negative is
rejected with a distinct user-facing message and no state change.  (The
source does not enforce the two-fractional-digit bound.) -/
theorem claim_C3_amended_invalid_amount_rejected
    (db : DB) (uid : Nat) (r a1 a2 d : String) (c : Option String)
    (sender : User) (v : PyFloat)
    (hsender : db.users.find? (fun u => u.id == uid) = some sender)
    (hne : pyLower (pyStrip r) ≠ "")
    (hna1 : pyStrip a1 ≠ "")
    (hna2 : pyStrip a2 ≠ "")
    (hp1 : parseAmount (pyStrip a1) = .valueError)
    (hp2 : parseAmount (pyStrip a2) = .ok v)
    (hv : v ≤ 0) :
    transfer db (some uid) r a1 d c = (db, .invalidAmount) ∧
    transfer db (some uid) r a2 d c = (db, .nonPositiveAmount) ∧
    transferFlash .invalidAmount ≠ transferFlash .nonPositiveAmount := by
  refine ⟨?_, ?_, by decide⟩
  · simp only [transfer, hsender, hp1]
    rw [if_neg (by simp [hne, hna1])]
  · simp only [transfer, hsender, hp2]
    rw [if_neg (by simp [hne, hna2]), if_pos hv]

/-- C4: a transfer whose (normalised) receiver identifier equals the
sender's own identifier never succeeds and never changes the database;
when the request is otherwise well-formed the rejection is exactly the
self-transfer message. -/
theorem claim_C4_self_transfer_rejected
    (db : DB) (uid : Nat) (r a d : String) (c : Option String) (sender : User)
    (hsender : db.users.find? (fun u => u.id == uid) = some sender)
    (hself : pyLower (pyStrip r) = sender.upi_id) :
    (transfer db (some uid) r a d c).1 = db ∧
    (∀ amt rupi, (transfer db (some uid) r a d c).2 ≠ .success amt rupi) ∧
    (pyLower (pyStrip r) ≠ "" → pyStrip a ≠ "" →
      ∀ v, parseAmount (pyStrip a) = .ok v → ¬ v ≤ 0 →
      transfer db (some uid) r a d c = (db, .selfTransfer)) := by
  have hnsucc : ∀ amt rupi,
      (transfer db (some uid) r a d c).2 ≠ .success amt rupi := by
    intro amt rupi hs
    have hfull : transfer db (some uid) r a d c =
        ((transfer db (some uid) r a d c).1,
         (transfer db (some uid) r a d c).2) := rfl
    rw [hs] at hfull
    obtain ⟨uid', sender', receiver', sw', hsid, hsender', hrupi, hparse, hpos,
      hnself, hreceiver, hrw, hsw, hbal, hc, hdb⟩ := transfer_success_inv hfull
    cases Option.some.inj hsid
    rw [hsender] at hsender'
    cases Option.some.inj hsender'
    exact hnself (hrupi.trans hself)
  refine ⟨?_, hnsucc, ?_⟩
  · rcases transfer_unchanged_or_success db (some uid) r a d c with h1 | ⟨amt, rupi, hs⟩
    · exact h1
    · exact absurd hs (hnsucc amt rupi)
  · intro hne hna v hv hvpos
    simp only [transfer, hsender, hv]
    rw [if_neg (by simp [hne, hna]), if_neg hvpos, if_pos (by simp [hself])]

/-- C5 counterexample: on a commit failure the handler flashes
`f'An error occurred during transfer: {e}'`, so the user-facing message
embeds the original exception detail and varies with it — it is not the
generic detail-free message the claim asserts. -/
theorem claim_C5_counterexample :
    transferFlash
      (transfer dbPair (some 1) "bob@mockupi" "150" "" (some "database is locked")).2 =
      "An error occurred during transfer: database is locked" ∧
    transferFlash
      (transfer dbPair (some 1) "bob@mockupi" "150" "" (some "database is locked")).2 ≠
    transferFlash
      (transfer dbPair (some 1) "bob@mockupi" "150" "" (some "x")).2 := by
  have hrun : ∀ e : String,
      (transfer dbPair (some 1) "bob@mockupi" "150" "" (some e)).2 =
        TransferResult.commitError e := by
    intro e
    simp [transfer, dbPair, parseAmount, splitSign, dotSplit, expSplit,
      digitGroup, digitGroupGo, parseExp, digitsToNat, pyLower, pyStrip,
      isPySpace, pyFloat_ofNat, pyFloat_lt_finite, pyFloat_le_finite,
      pyFloat_zero_eq]
    norm_num [pyFloat_le_finite, pyFloat_lt_finite]
  rw [hrun "database is locked", hrun "x"]
  exact ⟨rfl, by decide⟩

/-- C5 (amended): for every transfer in which the commit fails, all three
writes (sender debit, receiver credit, ledger append) are rolled back so
no partial state is persisted, and the user is shown the transfer-failed
message with the original exception detail appended to it (the detail is
exposed, not hidden). -/
theorem claim_C5_amended_commit_failure_rolls_back
    (db : DB) (uid : Nat) (r a d e : String) (sender receiver : User)
    (sw rw0 : Wallet) (amt : PyFloat)
    (hsender : db.users.find? (fun u => u.id == uid) = some sender)
    (hne : pyLower (pyStrip r) ≠ "")
    (hna : pyStrip a ≠ "")
    (hv : parseAmount (pyStrip a) = .ok amt)
    (hpos : ¬ amt ≤ 0)
    (hnself : pyLower (pyStrip r) ≠ sender.upi_id)
    (hrecv : db.users.find? (fun u => u.upi_id == pyLower (pyStrip r)) = some receiver)
    (hrw : db.wallets.find? (fun w => w.user_id == receiver.id) = some rw0)
    (hsw : db.wallets.find? (fun w => w.user_id == sender.id) = some sw)
    (hbal : ¬ sw.balance < amt) :
    transfer db (some uid) r a d (some e) = (db, .commitError e) ∧
    transferFlash (.commitError e) = "An error occurred during transfer: " ++ e := by
  refine ⟨?_, rfl⟩
  simp only [transfer, hsender, hv, hrecv, hrw, hsw]
  rw [if_neg (by simp [hne, hna]), if_neg hpos, if_neg (by simp [hnself]),
    if_neg hbal]

/-- C6: for an account with an active session, history returns exactly the
ledger entries in which the account's payment identifier appears as sender
or receiver — as a permutation of the ledger filter, so nothing foreign is
included and nothing is omitted — ordered by timestamp descending. -/
theorem claim_C6_history_exact_and_newest_first
    (db : DB) (uid : Nat) (user : User) (out : List Transaction)
    (huser : db.users.find? (fun u => u.id == uid) = some user)
    (hout : history db (some uid) = some out) :
    out.Perm (db.transactions.filter
      (fun t => t.sender_upi == user.upi_id || t.receiver_upi == user.upi_id)) ∧
    (∀ t, t ∈ out ↔ t ∈ db.transactions ∧
      (t.sender_upi = user.upi_id ∨ t.receiver_upi = user.upi_id)) ∧
    out.Sorted (fun x y => y.timestamp ≤ x.timestamp) := by
  have hout' : out = sortTsDesc (db.transactions.filter
      (fun t => t.sender_upi == user.upi_id || t.receiver_upi == user.upi_id)) := by
    simp only [history, huser] at hout
    exact (Option.some.inj hout).symm
  subst hout'
  refine ⟨sortTsDesc_perm _, ?_, sorted_sortTsDesc _⟩
  intro t
  rw [(sortTsDesc_perm _).mem_iff, List.mem_filter]
  simp [Bool.or_eq_true, beq_iff_eq]

/-- C7: a committed registration stores a payment identifier that collides
with no existing account's identifier, so identifier uniqueness across all
accounts is preserved. -/
theorem claim_C7_registered_upi_unique
    (db : DB) (n e p : String) (fuel : Nat) (c1 c2 : Bool)
    (db' : DB) (upi : String)
    (h : register db none n e p fuel c1 c2 = (db', .success upi))
    (hnd : (db.users.map (fun u => u.upi_id)).Nodup) :
    upi ∉ db.users.map (fun u => u.upi_id) ∧
    (∃ user, db'.users = db.users ++ [user] ∧ user.upi_id = upi) ∧
    (db'.users.map (fun u => u.upi_id)).Nodup := by
  obtain ⟨hupi, hc1, hc2, hdb⟩ := register_success_inv h
  have hmem := genUpi_not_mem hupi
  refine ⟨hmem, ⟨_, by rw [hdb], rfl⟩, ?_⟩
  rw [hdb]
  simp only [List.map_append, List.map_cons, List.map_nil]
  rw [List.nodup_append]
  exact ⟨hnd, List.nodup_singleton upi, List.disjoint_singleton.mpr hmem⟩

/-- C8 counterexample: registration commits the Account and the Wallet in
two separate commits; when the second commit fails the already committed
Account persists with no Wallet row, so the creation is not a single
atomic unit. -/
theorem claim_C8_counterexample :
    (register dbEmpty none "Alice" "alice@gmail.com" "pw" 1 true false).2 =
      RegisterResult.serverError ∧
    (register dbEmpty none "Alice" "alice@gmail.com" "pw" 1 true false).1.users.map
      (fun u => u.upi_id) = ["alice@mockupi"] ∧
    (register dbEmpty none "Alice" "alice@gmail.com" "pw" 1 true false).1.wallets = [] := by
  refine ⟨?_, ?_, ?_⟩ <;>
    simp [register, dbEmpty, genUpi, pyLower, pyStrip, isPySpace, localPart,
      hashPassword]

/-- C8 (amended): registration creates the Account and its Wallet in two
separate commits, the Wallet seeded with balance 1000; when both commits
succeed the new account's wallet row exists with balance 1000, but a
failure between the two commits leaves a committed Account with no Wallet
(creation is not atomic). -/
theorem claim_C8_amended_wallet_seeded_1000
    (db : DB) (n e p : String) (fuel : Nat) (c1 c2 : Bool)
    (db' : DB) (upi : String)
    (h : register db none n e p fuel c1 c2 = (db', .success upi)) :
    ∃ user, db'.users = db.users ++ [user] ∧ user.upi_id = upi ∧
      db'.wallets = db.wallets ++ [{ user_id := user.id, balance := 1000 }] := by
  obtain ⟨hupi, hc1, hc2, hdb⟩ := register_success_inv h
  exact ⟨_, by rw [hdb], rfl, by rw [hdb]⟩

/-- C9: when the receiver account exists but has no wallet row, the
transfer is rejected with the recipient-wallet-not-found message and no
state change; the check sits after receiver existence and before the
balance check (no hypothesis about the sender's balance is needed). -/
theorem claim_C9_receiver_wallet_missing_rejected
    (db : DB) (uid : Nat) (r a d : String) (c : Option String)
    (sender receiver : User) (amt : PyFloat)
    (hsender : db.users.find? (fun u => u.id == uid) = some sender)
    (hne : pyLower (pyStrip r) ≠ "")
    (hna : pyStrip a ≠ "")
    (hv : parseAmount (pyStrip a) = .ok amt)
    (hpos : ¬ amt ≤ 0)
    (hnself : pyLower (pyStrip r) ≠ sender.upi_id)
    (hrecv : db.users.find? (fun u => u.upi_id == pyLower (pyStrip r)) = some receiver)
    (hnw : db.wallets.find? (fun w => w.user_id == receiver.id) = none) :
    transfer db (some uid) r a d c = (db, .recipientWalletNotFound) := by
  simp only [transfer, hsender, hv, hrecv, hnw]
  rw [if_neg (by simp [hne, hna])]
  rw [if_neg hpos]
  rw [if_neg (by simp [hnself])]

/-- C10: the transfer handler normalises the submitted receiver identifier
by stripping and lower-casing before any check, and registration only ever
stores identifiers that are already lower-case, so receiver lookup and the
self-transfer check are case-insensitive at the public interface: two
receiver inputs equal up to case and surrounding whitespace behave
identically, and an input differing from a stored identifier only in case
still finds that identifier. -/
theorem claim_C10_receiver_matching_case_insensitive
    (db : DB) (sid : Option Nat) (a d : String) (c : Option String) :
    (∀ r1 r2 : String, pyLower (pyStrip r1) = pyLower (pyStrip r2) →
      transfer db sid r1 a d c = transfer db sid r2 a d c) ∧
    (∀ (n e p : String) (fuel : Nat) (c1 c2 : Bool) (db' : DB) (upi : String),
      register db none n e p fuel c1 c2 = (db', .success upi) →
      pyLower upi = upi) ∧
    (∀ (r : String) (u : User), u ∈ db.users → pyLower u.upi_id = u.upi_id →
      pyLower (pyStrip r) = pyLower u.upi_id →
      ∃ v, db.users.find? (fun x => x.upi_id == pyLower (pyStrip r)) = some v ∧
        v.upi_id = u.upi_id) := by
  refine ⟨?_, ?_, ?_⟩
  · intro r1 r2 hr
    simp only [transfer, hr]
  · intro n e p fuel c1 c2 db' upi h
    exact register_upi_lowerFixed h
  · intro r u hu hlow hr
    have hpred : (fun x : User => x.upi_id == pyLower (pyStrip r)) u = true := by
      simp [hr, hlow]
    have hsome : (db.users.find? (fun x => x.upi_id == pyLower (pyStrip r))).isSome := by
      rw [List.find?_isSome]
      exact ⟨u, hu, hpred⟩
    obtain ⟨v, hv⟩ := Option.isSome_iff_exists.mp hsome
    refine ⟨v, hv, ?_⟩
    have := List.find?_some hv
    rw [beq_iff_eq] at this
    rw [this, hr, hlow]

/-- Witness for C1: Alice (balance 1000) sends Bob (balance 1000) 150;
afterwards 850 and 1150 with one new ledger row. -/
theorem claim_C1_witness :
    ((dbPair.users.map (fun u => u.id)).Nodup ∧
     transfer dbPair (some 1) "bob@mockupi" "150" "" none =
       ({ dbPair with
           wallets := [{ user_id := 1, balance := 850 },
                       { user_id := 2, balance := 1150 }],
           transactions :=
             [{ sender_upi := "alice@mockupi", receiver_upi := "bob@mockupi",
                amount := 150, description := "UPI Transfer", timestamp := 5 }] },
        TransferResult.success 150 "bob@mockupi")) ∧
    (∃ uid sender receiver,
      (some 1 : Option Nat) = some uid ∧
      dbPair.users.find? (fun u => u.id == uid) = some sender ∧
      dbPair.users.find? (fun u => u.upi_id == "bob@mockupi") = some receiver ∧
      receiver.upi_id = "bob@mockupi" ∧
      (∃ bs, getBalance dbPair sender.id = some bs ∧
        getBalance { dbPair with
           wallets := [{ user_id := 1, balance := 850 },
                       { user_id := 2, balance := 1150 }],
           transactions :=
             [{ sender_upi := "alice@mockupi", receiver_upi := "bob@mockupi",
                amount := 150, description := "UPI Transfer", timestamp := 5 }] } sender.id =
          some (bs - 150)) ∧
      (∃ br, getBalance dbPair receiver.id = some br ∧
        getBalance { dbPair with
           wallets := [{ user_id := 1, balance := 850 },
                       { user_id := 2, balance := 1150 }],
           transactions :=
             [{ sender_upi := "alice@mockupi", receiver_upi := "bob@mockupi",
                amount := 150, description := "UPI Transfer", timestamp := 5 }] } receiver.id =
          some (br + 150)) ∧
      (∃ desc,
        ({ dbPair with
           wallets := [{ user_id := 1, balance := 850 },
                       { user_id := 2, balance := 1150 }],
           transactions :=
             [{ sender_upi := "alice@mockupi", receiver_upi := "bob@mockupi",
                amount := 150, description := "UPI Transfer", timestamp := 5 }] } : DB).transactions =
          dbPair.transactions ++
            [{ sender_upi := sender.upi_id, receiver_upi := "bob@mockupi",
               amount := 150, description := desc, timestamp := dbPair.now }])) := by
  have h1 : (dbPair.users.map (fun u => u.id)).Nodup := by decide
  have h2 : transfer dbPair (some 1) "bob@mockupi" "150" "" none =
      ({ dbPair with
          wallets := [{ user_id := 1, balance := 850 },
                      { user_id := 2, balance := 1150 }],
          transactions :=
            [{ sender_upi := "alice@mockupi", receiver_upi := "bob@mockupi",
               amount := 150, description := "UPI Transfer", timestamp := 5 }] },
       TransferResult.success 150 "bob@mockupi") := by
    simp [transfer, dbPair, parseAmount, splitSign, dotSplit, expSplit,
      digitGroup, digitGroupGo, parseExp, digitsToNat, pyLower, pyStrip,
      isPySpace, updateFirst, pyFloat_ofNat, pyFloat_le_finite,
      pyFloat_lt_finite, pyFloat_zero_eq, pyFloat_sub_finite, pyFloat_add_finite]
    norm_num [updateFirst, pyFloat_ofNat, pyFloat_le_finite, pyFloat_lt_finite,
      pyFloat_sub_finite, pyFloat_add_finite]
  exact ⟨⟨h1, h2⟩,
    claim_C1_commit_balances_and_ledger dbPair (some 1) "bob@mockupi" "150" ""
      none _ 150 "bob@mockupi" h1 h2⟩

/-- Witness for the amended C2: the same concrete transfer (amount not
NaN) keeps every balance finite and non-negative. -/
theorem claim_C2_amended_witness :
    ((∀ w ∈ dbPair.wallets, ∃ q : ℚ, w.balance = .finite q ∧ 0 ≤ q) ∧
     parseAmount (pyStrip "150") ≠ .ok .nan) ∧
    ((∀ w ∈ (transfer dbPair (some 1) "bob@mockupi" "150" "" none).1.wallets,
        ∃ q : ℚ, w.balance = .finite q ∧ 0 ≤ q) ∧
     (∀ db' amt rupi,
        transfer dbPair (some 1) "bob@mockupi" "150" "" none =
          (db', .success amt rupi) →
        ¬ amt ≤ 0 ∧ ∃ uid sender sw, (some 1 : Option Nat) = some uid ∧
          dbPair.users.find? (fun u => u.id == uid) = some sender ∧
          dbPair.wallets.find? (fun w => w.user_id == sender.id) = some sw ∧
          amt ≤ sw.balance)) := by
  have h0 : ∀ w ∈ dbPair.wallets, ∃ q : ℚ, w.balance = .finite q ∧ 0 ≤ q := by
    intro w hw
    simp only [dbPair, List.mem_cons, List.not_mem_nil, or_false] at hw
    rcases hw with rfl | rfl
    · exact ⟨1000, rfl, by norm_num⟩
    · exact ⟨1000, rfl, by norm_num⟩
  have hp : parseAmount (pyStrip "150") = .ok (.finite 150) := by
    simp [parseAmount, splitSign, dotSplit, expSplit, digitGroup, digitGroupGo,
      parseExp, digitsToNat, pyStrip, isPySpace]
    try norm_num
  have hnn : parseAmount (pyStrip "150") ≠ .ok .nan := by
    rw [hp]
    simp
  exact ⟨⟨h0, hnn⟩, claim_C2_amended_nonneg_unless_nan dbPair (some 1)
    "bob@mockupi" "150" "" none h0 hnn⟩

/-- Witness for the amended C3: with Alice logged in, the non-numeric
amount `"zzz"` is rejected as invalid and the negative amount `"-5"` as
non-positive, both with no state change. -/
theorem claim_C3_amended_witness :
    (dbPair.users.find? (fun u => u.id == 1) = some userAlice ∧
     pyLower (pyStrip "bob@mockupi") ≠ "" ∧
     pyStrip "zzz" ≠ "" ∧
     pyStrip "-5" ≠ "" ∧
     parseAmount (pyStrip "zzz") = .valueError ∧
     parseAmount (pyStrip "-5") = .ok (.finite (-5)) ∧
     ((.finite (-5) : PyFloat) ≤ 0)) ∧
    (transfer dbPair (some 1) "bob@mockupi" "zzz" "" none =
       (dbPair, .invalidAmount) ∧
     transfer dbPair (some 1) "bob@mockupi" "-5" "" none =
       (dbPair, .nonPositiveAmount) ∧
     transferFlash .invalidAmount ≠ transferFlash .nonPositiveAmount) := by
  have h1 : dbPair.users.find? (fun u => u.id == 1) = some userAlice := by
    decide
  have h2 : pyLower (pyStrip "bob@mockupi") ≠ "" := by decide
  have h3 : pyStrip "zzz" ≠ "" := by decide
  have h4 : pyStrip "-5" ≠ "" := by decide
  have h5 : parseAmount (pyStrip "zzz") = .valueError := by decide
  have h6 : parseAmount (pyStrip "-5") = .ok (.finite (-5)) := by
    simp [parseAmount, splitSign, dotSplit, expSplit, digitGroup, digitGroupGo,
      parseExp, digitsToNat, pyStrip, isPySpace]
    try norm_num
  have h7 : ((.finite (-5) : PyFloat) ≤ 0) := by
    rw [pyFloat_zero_eq]
    exact pyFloat_le_finite.mpr (by norm_num)
  exact ⟨⟨h1, h2, h3, h4, h5, h6, h7⟩,
    claim_C3_amended_invalid_amount_rejected dbPair 1 "bob@mockupi" "zzz" "-5"
      "" none userAlice (.finite (-5)) h1 h2 h3 h4 h5 h6 h7⟩

/-- Witness for C4: Alice attempting to pay her own identifier is
rejected with the self-transfer message and no state change. -/
theorem claim_C4_witness :
    (dbPair.users.find? (fun u => u.id == 1) = some userAlice ∧
     pyLower (pyStrip "Alice@MockUPI") = userAlice.upi_id) ∧
    ((transfer dbPair (some 1) "Alice@MockUPI" "10" "" none).1 = dbPair ∧
     (∀ amt rupi, (transfer dbPair (some 1) "Alice@MockUPI" "10" "" none).2 ≠
        .success amt rupi) ∧
     (pyLower (pyStrip "Alice@MockUPI") ≠ "" → pyStrip "10" ≠ "" →
       ∀ v, parseAmount (pyStrip "10") = .ok v → ¬ v ≤ 0 →
       transfer dbPair (some 1) "Alice@MockUPI" "10" "" none =
         (dbPair, .selfTransfer))) := by
  have h1 : dbPair.users.find? (fun u => u.id == 1) = some userAlice := by
    decide
  have h2 : pyLower (pyStrip "Alice@MockUPI") = userAlice.upi_id := by decide
  exact ⟨⟨h1, h2⟩,
    claim_C4_self_transfer_rejected dbPair 1 "Alice@MockUPI" "10" "" none
      userAlice h1 h2⟩

/-- Witness for the amended C5: a concrete failing commit rolls the
transfer back and flashes the message with the exception detail. -/
theorem claim_C5_amended_witness :
    (dbPair.users.find? (fun u => u.id == 1) = some userAlice ∧
     pyLower (pyStrip "bob@mockupi") ≠ "" ∧
     pyStrip "150" ≠ "" ∧
     parseAmount (pyStrip "150") = .ok (.finite 150) ∧
     ¬ (.finite 150 : PyFloat) ≤ 0 ∧
     pyLower (pyStrip "bob@mockupi") ≠ userAlice.upi_id ∧
     dbPair.users.find? (fun u => u.upi_id == pyLower (pyStrip "bob@mockupi")) =
        some { id := 2, name := "Bob", email := "bob@gmail.com",
               password := hashPassword "pw2", upi_id := "bob@mockupi" } ∧
     dbPair.wallets.find? (fun w => w.user_id ==
        ({ id := 2, name := "Bob", email := "bob@gmail.com",
           password := hashPassword "pw2", upi_id := "bob@mockupi" } : User).id) =
        some { user_id := 2, balance := 1000 } ∧
     dbPair.wallets.find? (fun w => w.user_id == userAlice.id) =
        some { user_id := 1, balance := 1000 } ∧
     ¬ ({ user_id := 1, balance := 1000 } : Wallet).balance < .finite 150) ∧
    (transfer dbPair (some 1) "bob@mockupi" "150" "" (some "disk full") =
        (dbPair, .commitError "disk full") ∧
     transferFlash (.commitError "disk full") =
       "An error occurred during transfer: " ++ "disk full") := by
  have h1 : dbPair.users.find? (fun u => u.id == 1) = some userAlice := by
    decide
  have h2 : pyLower (pyStrip "bob@mockupi") ≠ "" := by decide
  have h3 : pyStrip "150" ≠ "" := by decide
  have h4 : parseAmount (pyStrip "150") = .ok (.finite 150) := by
    simp [parseAmount, splitSign, dotSplit, expSplit, digitGroup, digitGroupGo,
      parseExp, digitsToNat, pyStrip, isPySpace]
    try norm_num
  have h5 : ¬ (.finite 150 : PyFloat) ≤ 0 := by
    rw [pyFloat_zero_eq]
    intro hcon
    exact absurd (pyFloat_le_finite.mp hcon) (by norm_num)
  have h6 : pyLower (pyStrip "bob@mockupi") ≠ userAlice.upi_id := by decide
  have h7 : dbPair.users.find? (fun u => u.upi_id == pyLower (pyStrip "bob@mockupi")) =
      some { id := 2, name := "Bob", email := "bob@gmail.com",
             password := hashPassword "pw2", upi_id := "bob@mockupi" } := by
    decide
  have h8 : dbPair.wallets.find? (fun w => w.user_id ==
      ({ id := 2, name := "Bob", email := "bob@gmail.com",
         password := hashPassword "pw2", upi_id := "bob@mockupi" } : User).id) =
      some { user_id := 2, balance := 1000 } := by
    decide
  have h9 : dbPair.wallets.find? (fun w => w.user_id == userAlice.id) =
      some { user_id := 1, balance := 1000 } := by
    decide
  have h10 : ¬ ({ user_id := 1, balance := 1000 } : Wallet).balance < .finite 150 := by
    intro hcon
    exact absurd (pyFloat_lt_finite.mp hcon) (by norm_num)
  exact ⟨⟨h1, h2, h3, h4, h5, h6, h7, h8, h9, h10⟩,
    claim_C5_amended_commit_failure_rolls_back dbPair 1 "bob@mockupi" "150" ""
      "disk full" userAlice _ _ _ (.finite 150) h1 h2 h3 h4 h5 h6 h7 h8 h9 h10⟩

/-- Witness for C6: Alice's history over a three-row ledger returns
exactly her two rows, newest first. -/
theorem claim_C6_witness :
    (dbHist.users.find? (fun u => u.id == 1) = some userAlice ∧
     history dbHist (some 1) = some aliceRows) ∧
    (aliceRows.Perm (dbHist.transactions.filter (fun t =>
        t.sender_upi == userAlice.upi_id || t.receiver_upi == userAlice.upi_id)) ∧
     (∀ t, t ∈ aliceRows ↔ t ∈ dbHist.transactions ∧
        (t.sender_upi = userAlice.upi_id ∨ t.receiver_upi = userAlice.upi_id)) ∧
     aliceRows.Sorted (fun x y => y.timestamp ≤ x.timestamp)) := by
  have h1 : dbHist.users.find? (fun u => u.id == 1) = some userAlice := by
    decide
  have h2 : history dbHist (some 1) = some aliceRows := by
    simp [history, dbHist, dbPair, hashPassword, sortTsDesc, insertTsDesc,
      aliceRows, userAlice]
  exact ⟨⟨h1, h2⟩, claim_C6_history_exact_and_newest_first dbHist 1 _ _ h1 h2⟩

/-- Witness for C7: registering Alice in the empty database stores the
fresh identifier `alice@mockupi`. -/
theorem claim_C7_witness :
    (register dbEmpty none "Alice" "alice@gmail.com" "pw" 1 true true =
       ({ dbEmpty with
           users := [{ id := 1, name := "Alice", email := "alice@gmail.com",
                       password := hashPassword "pw", upi_id := "alice@mockupi" }],
           wallets := [{ user_id := 1, balance := 1000 }],
           nextId := 2 },
        RegisterResult.success "alice@mockupi") ∧
     (dbEmpty.users.map (fun u => u.upi_id)).Nodup) ∧
    ("alice@mockupi" ∉ dbEmpty.users.map (fun u => u.upi_id) ∧
     (∃ user, ({ dbEmpty with
           users := [{ id := 1, name := "Alice", email := "alice@gmail.com",
                       password := hashPassword "pw", upi_id := "alice@mockupi" }],
           wallets := [{ user_id := 1, balance := 1000 }],
           nextId := 2 } : DB).users = dbEmpty.users ++ [user] ∧
        user.upi_id = "alice@mockupi") ∧
     (({ dbEmpty with
           users := [{ id := 1, name := "Alice", email := "alice@gmail.com",
                       password := hashPassword "pw", upi_id := "alice@mockupi" }],
           wallets := [{ user_id := 1, balance := 1000 }],
           nextId := 2 } : DB).users.map (fun u => u.upi_id)).Nodup) := by
  have h1 : register dbEmpty none "Alice" "alice@gmail.com" "pw" 1 true true =
      ({ dbEmpty with
          users := [{ id := 1, name := "Alice", email := "alice@gmail.com",
                      password := hashPassword "pw", upi_id := "alice@mockupi" }],
          wallets := [{ user_id := 1, balance := 1000 }],
          nextId := 2 },
       RegisterResult.success "alice@mockupi") := by
    simp [register, dbEmpty, genUpi, genUpiLoop, localPart, pyLower, pyStrip,
      isPySpace, hashPassword]
  have h2 : (dbEmpty.users.map (fun u => u.upi_id)).Nodup := by decide
  exact ⟨⟨h1, h2⟩,
    claim_C7_registered_upi_unique dbEmpty "Alice" "alice@gmail.com" "pw" 1
      true true _ "alice@mockupi" h1 h2⟩

/-- Witness for the amended C8: the same committed registration seeds the
new wallet with balance 1000. -/
theorem claim_C8_amended_witness :
    (register dbEmpty none "Alice" "alice@gmail.com" "pw" 1 true true =
       ({ dbEmpty with
           users := [{ id := 1, name := "Alice", email := "alice@gmail.com",
                       password := hashPassword "pw", upi_id := "alice@mockupi" }],
           wallets := [{ user_id := 1, balance := 1000 }],
           nextId := 2 },
        RegisterResult.success "alice@mockupi")) ∧
    (∃ user, ({ dbEmpty with
         users := [{ id := 1, name := "Alice", email := "alice@gmail.com",
                     password := hashPassword "pw", upi_id := "alice@mockupi" }],
         wallets := [{ user_id := 1, balance := 1000 }],
         nextId := 2 } : DB).users = dbEmpty.users ++ [user] ∧
       user.upi_id = "alice@mockupi" ∧
       ({ dbEmpty with
         users := [{ id := 1, name := "Alice", email := "alice@gmail.com",
                     password := hashPassword "pw", upi_id := "alice@mockupi" }],
         wallets := [{ user_id := 1, balance := 1000 }],
         nextId := 2 } : DB).wallets = dbEmpty.wallets ++
           [{ user_id := user.id, balance := 1000 }]) := by
  have h1 : register dbEmpty none "Alice" "alice@gmail.com" "pw" 1 true true =
      ({ dbEmpty with
          users := [{ id := 1, name := "Alice", email := "alice@gmail.com",
                      password := hashPassword "pw", upi_id := "alice@mockupi" }],
          wallets := [{ user_id := 1, balance := 1000 }],
          nextId := 2 },
       RegisterResult.success "alice@mockupi") := by
    simp [register, dbEmpty, genUpi, genUpiLoop, localPart, pyLower, pyStrip,
      isPySpace, hashPassword]
  exact ⟨h1, claim_C8_amended_wallet_seeded_1000 dbEmpty "Alice"
    "alice@gmail.com" "pw" 1 true true _ "alice@mockupi" h1⟩

/-- Witness for C9: with Bob's wallet row missing, Alice's transfer to Bob
is rejected with the recipient-wallet message, unchanged state — and the
rejection fires even though the balance precondition was never consulted. -/
theorem claim_C9_witness :
    (dbNoWallet.users.find? (fun u => u.id == 1) = some userAlice ∧
     pyLower (pyStrip "bob@mockupi") ≠ "" ∧
     pyStrip "10" ≠ "" ∧
     parseAmount (pyStrip "10") = .ok (.finite 10) ∧
     ¬ (.finite 10 : PyFloat) ≤ 0 ∧
     pyLower (pyStrip "bob@mockupi") ≠ userAlice.upi_id ∧
     dbNoWallet.users.find? (fun u => u.upi_id == pyLower (pyStrip "bob@mockupi")) =
        some { id := 2, name := "Bob", email := "bob@gmail.com",
               password := hashPassword "pw2", upi_id := "bob@mockupi" } ∧
     dbNoWallet.wallets.find? (fun w => w.user_id ==
        ({ id := 2, name := "Bob", email := "bob@gmail.com",
           password := hashPassword "pw2", upi_id := "bob@mockupi" } : User).id) = none) ∧
    transfer dbNoWallet (some 1) "bob@mockupi" "10" "" none =
      (dbNoWallet, .recipientWalletNotFound) := by
  have h1 : dbNoWallet.users.find? (fun u => u.id == 1) = some userAlice := by
    decide
  have h2 : pyLower (pyStrip "bob@mockupi") ≠ "" := by decide
  have h3 : pyStrip "10" ≠ "" := by decide
  have h4 : parseAmount (pyStrip "10") = .ok (.finite 10) := by
    simp [parseAmount, splitSign, dotSplit, expSplit, digitGroup, digitGroupGo,
      parseExp, digitsToNat, pyStrip, isPySpace]
    try norm_num
  have h5 : ¬ (.finite 10 : PyFloat) ≤ 0 := by
    rw [pyFloat_zero_eq]
    intro hcon
    exact absurd (pyFloat_le_finite.mp hcon) (by norm_num)
  have h6 : pyLower (pyStrip "bob@mockupi") ≠ userAlice.upi_id := by decide
  have h7 : dbNoWallet.users.find? (fun u => u.upi_id == pyLower (pyStrip "bob@mockupi")) =
      some { id := 2, name := "Bob", email := "bob@gmail.com",
             password := hashPassword "pw2", upi_id := "bob@mockupi" } := by
    decide
  have h8 : dbNoWallet.wallets.find? (fun w => w.user_id ==
      ({ id := 2, name := "Bob", email := "bob@gmail.com",
         password := hashPassword "pw2", upi_id := "bob@mockupi" } : User).id) = none := by
    decide
  exact ⟨⟨h1, h2, h3, h4, h5, h6, h7, h8⟩,
    claim_C9_receiver_wallet_missing_rejected dbNoWallet 1 "bob@mockupi" "10" ""
      none userAlice _ (.finite 10) h1 h2 h3 h4 h5 h6 h7 h8⟩
